import Mathlib

/-!
Verification of the shape-equivalence-class array analysis pass
(`numba/array_analysis.py`).

The Python class `ArrayAnalysis` is embedded shallowly: its mutable
attribute dictionaries become fields of an explicit state record
`AState`, each method becomes a state-passing Lean function, and every
place where the Python code can raise an exception (failed `assert`,
`KeyError`, `IndexError`, `AttributeError`, `NameError`) is modelled by
an `Except String` result, since an uncaught exception aborts the whole
pass and leaves no observable state behind.

External inputs that the source file consumes but does not define are
modelled explicitly and documented at their definitions:
  * the per-variable type map (a dict supplied by the surrounding
    compiler) becomes an association list of `Typ`;
  * membership of an operator in `UNARY_MAP_OP` / `BINARY_MAP_OP`
    (static configuration imported from `numba.typing.npydecl`) is
    carried as a boolean on the corresponding expression constructor;
  * `UFUNC_MAP_OP` (the universal-function name registry, also from
    `npydecl`) is modelled as a fixed list of names;
  * `mk_unique_var` (from `numba.ir_utils`) is modelled by a counter.
-/

namespace ArrayAnalysis

/-- Static types, as far as the pass inspects them: it tests
`isinstance(typ, types.npytypes.Array)` (reading `.ndim`),
`isinstance(typ, types.scalars.Integer)`, and
`isinstance(typ, types.containers.UniTuple)` (reading `.count`).
Every other type is only ever a non-match, collapsed to `other`. -/
inductive Typ where
  | int : Typ
  | array (ndim : Nat) : Typ
  | uniTuple (count : Nat) : Typ
  | other : Typ
deriving DecidableEq, Repr

def Typ.isArray : Typ → Bool
  | .array _ => true
  | _ => false

/-- An element of a `class_sizes` / `tuple_table` / `array_size_vars`
list: the Python code stores either a plain integer (the constant `1`
for class `0`, the `-1` placeholders, constants inside a constant
tuple) or an `ir.Var` (identified here by its name). -/
inductive SizeVal where
  | intV (n : Int) : SizeVal
  | varV (name : String) : SizeVal
deriving DecidableEq, Repr

/-- Right-hand sides of assignments, covering exactly the node shapes
`_analyze_assign` / `_analyze_rhs_classes` discriminate on.

`globalNumpy` is an `ir.Global` whose value has `__name__ == 'numpy'`;
`globalUfunc` is an `ir.Global` whose value is an instance of a type in
`MAP_TYPES = [numpy.ufunc]`; `globalOther` is any other global.

For `unary`, `binop` and `inplace_binop` the boolean records whether the
node's function is a member of `UNARY_MAP_OP` resp. `BINARY_MAP_OP`;
those operator sets are static configuration imported from
`numba.typing.npydecl` (not part of this source file), so membership is
carried on the node. `otherExpr` stands for an `ir.Expr` with any other
`op`, and `otherNode` for a right-hand side that is none of the node
kinds the pass inspects (e.g. a non-tuple constant). -/
inductive Expr where
  | globalNumpy : Expr
  | globalUfunc : Expr
  | globalOther (name : String) : Expr
  | getattr (value : String) (attr : String) : Expr
  | build_tuple (items : List String) : Expr
  | constTuple (items : List Int) : Expr
  | constInt (i : Int) : Expr
  | var (name : String) : Expr
  | arg (name : String) : Expr
  | unary (fnInMapOp : Bool) (value : String) : Expr
  | binop (fnInMapOp : Bool) (lhs rhs : String) : Expr
  | inplace_binop (fnInMapOp : Bool) (lhs rhs : String) : Expr
  | arrayexpr (vars : List String) : Expr
  | cast (value : String) : Expr
  | call (func : String) (args : List String) : Expr
  | static_getitem (value : String) (index : Nat) (indexVar : String) : Expr
  | otherExpr (descr : String) : Expr
  | otherNode (descr : String) : Expr
deriving DecidableEq, Repr

/-- An instruction: an `ir.Assign` (target name and right-hand side),
or any other instruction kind, which `_analyze_inst` ignores. -/
inductive Inst where
  | assign (target : String) (value : Expr) : Inst
  | other (descr : String) : Inst
deriving DecidableEq, Repr

/-- Lookup in an association list (Python dict read `d[k]` /
`k in d`). -/
def lookupA {α β : Type} [DecidableEq α] : List (α × β) → α → Option β
  | [], _ => none
  | (k, v) :: rest, k' => if k = k' then some v else lookupA rest k'

/-- Python dict write `d[k] = v`: replace the value of an existing key
in place, otherwise append a new entry. -/
def insertA {α β : Type} [DecidableEq α] : List (α × β) → α → β → List (α × β)
  | [], k, v => [(k, v)]
  | (k', v') :: rest, k, v =>
    if k' = k then (k, v) :: rest else (k', v') :: insertA rest k v

/-- Python dict `d.pop(k, default)` discarding the value: remove the
key's entry.  (Dict keys are unique, so removing every matching entry
coincides with removing the one entry.) -/
def popA {α β : Type} [DecidableEq α] : List (α × β) → α → List (α × β)
  | [], _ => []
  | (a, b) :: rest, k => if a = k then popA rest k else (a, b) :: popA rest k

/-- The mutable state of one `ArrayAnalysis` instance, one field per
attribute set up in `__init__`, plus:
  * `typemap` — the externally supplied variable-to-type dict
    (`self.typemap`), extended by the pass for synthesized variables;
  * `calltypes` — the call-type dict; the pass only ever writes
    `self.calltypes[node] = None`, so we record the keys;
  * `uid` — the counter behind the modelled `mk_unique_var`. -/
structure AState where
  next_eq_class : Int := 1
  array_shape_classes : List (String × List Int) := []
  class_sizes : List (Int × List SizeVal) := [(0, [SizeVal.intV 1])]
  array_size_vars : List (String × List SizeVal) := []
  numpy_globals : List String := []
  map_calls : List String := []
  numpy_calls : List (String × String) := []
  array_attr_calls : List (String × (String × String)) := []
  tuple_table : List (String × List SizeVal) := []
  typemap : List (String × Typ) := []
  calltypes : List Expr := []
  uid : Nat := 0
deriving DecidableEq, Repr

/-- Type map lookup.  Absent names are collapsed to the non-matching
placeholder `Typ.other`: the pass only consults the type map through
`isinstance` tests, all of which fail for a name the surrounding
compiler never typed. -/
def typemapOf (s : AState) (name : String) : Typ :=
  (lookupA s.typemap name).getD Typ.other

def setType (s : AState) (name : String) (t : Typ) : AState :=
  {s with typemap := insertA s.typemap name t}

/-- Source: `self._isarray(varname)` —
`isinstance(self.typemap[varname], types.npytypes.Array)`. -/
def _isarray (s : AState) (varname : String) : Bool :=
  (typemapOf s varname).isArray

/-- Modelled: `mk_unique_var` from `numba.ir_utils` (not part of this
source file).  It returns a fresh variable name derived from the given
base name; we append a monotonically increasing counter. -/
def mk_unique_var (base : String) (s : AState) : String × AState :=
  (base ++ "." ++ toString s.uid, {s with uid := s.uid + 1})

/-- Modelled from the spec: `UFUNC_MAP_OP = [f.__name__ for f in
npydecl.supported_ufuncs]` — the registry of universal-function names
is static configuration supplied by `numba.typing.npydecl`, which is
not part of this source file; the spec (sections 4.3a and 6) describes
it as the set of names of supported universal functions. -/
def UFUNC_MAP_OP : List String :=
  ["add", "subtract", "multiply", "divide", "true_divide", "power",
   "exp", "log", "sqrt", "sin", "cos", "tan", "negative", "absolute"]

/-- Source: `self._get_next_class()`. -/
def _get_next_class (s : AState) : Int × AState :=
  (s.next_eq_class, {s with next_eq_class := s.next_eq_class + 1})

/-- Source: `self._get_ndims(arr)` — `len(self.array_shape_classes[arr])`.
Every call site has the key present (Python would raise `KeyError`
otherwise); an absent key is read here as the empty list. -/
def _get_ndims (s : AState) (arr : String) : Nat :=
  ((lookupA s.array_shape_classes arr).getD []).length

/-- Source: `self._merge_classes(c1, c2)`.  If the classes are equal,
no-op.  Otherwise allocate a fresh class, rewrite every occurrence of
either class in every recorded shape vector to it, and give it the
concatenation of the two popped `class_sizes` entries. -/
def _merge_classes (c1 c2 : Int) (s : AState) : Int × AState :=
  if c1 = c2 then (c1, s)
  else
    let p := _get_next_class s
    let new_class := p.1
    let s := p.2
    let shapes :=
      s.array_shape_classes.map
        (fun e => (e.1, e.2.map (fun x => if x = c1 ∨ x = c2 then new_class else x)))
    let l1 := (lookupA s.class_sizes c1).getD []
    let l2 := (lookupA s.class_sizes c2).getD []
    let sizes := insertA (popA (popA s.class_sizes c1) c2) new_class (l1 ++ l2)
    (new_class, {s with array_shape_classes := shapes, class_sizes := sizes})

/-- The fresh-class loop of `_add_array_corr`: allocate `n` new classes
in order. -/
def allocClasses : Nat → AState → List Int × AState
  | 0, s => ([], s)
  | n + 1, s =>
    let p := _get_next_class s
    let rest := allocClasses n p.2
    (p.1 :: rest.1, rest.2)

/-- Source: `self._add_array_corr(varname)`.  Asserts the variable has
no recorded shape yet, reads the array type's `ndim` (an
`AttributeError` if the type is not an array — unreachable, since the
one caller asserts arrayness first), and records one fresh class per
dimension. -/
def _add_array_corr (varname : String) (s : AState) : Except String (List Int × AState) :=
  if (lookupA s.array_shape_classes varname).isSome then
    .error "AssertionError: varname already in array_shape_classes"
  else
    match typemapOf s varname with
    | .array n =>
      let p := allocClasses n s
      .ok (p.1, {p.2 with array_shape_classes := insertA p.2.array_shape_classes varname p.1})
    | _ => .error "AttributeError: type has no ndim"

/-- The per-element loop of `_get_classes_from_shape`'s tuple branch:
for `i` in `range(count)`, allocate a class and record
`self.tuple_table[shape_arg][i]` as its size entry (an `IndexError` if
the recorded tuple is shorter than the static count). -/
def classesFromTuple (elems : List SizeVal) : Nat → Nat → AState → Except String (List Int × AState)
  | 0, _, s => .ok ([], s)
  | n + 1, i, s =>
    match elems.get? i with
    | none => .error "IndexError: tuple index out of range"
    | some e =>
      let p := _get_next_class s
      let s1 := {p.2 with class_sizes := insertA p.2.class_sizes p.1 [e]}
      match classesFromTuple elems n (i + 1) s1 with
      | .error msg => .error msg
      | .ok r => .ok (p.1 :: r.1, r.2)

/-- Source: `self._get_classes_from_shape(shape_arg)`.  The scalar
integer branch executes `self.class_sizes[new_class] = [args[0]]`, but
no name `args` is in scope in that function, so it raises `NameError`
(the uncaught exception aborts the pass; the class allocated just
before the failing line is unobservable).  The tuple branch allocates
one class per static tuple element, each backed by the corresponding
`tuple_table` entry; any other argument type fails the trailing
`assert`. -/
def _get_classes_from_shape (shape_arg : String) (s : AState) : Except String (List Int × AState) :=
  match typemapOf s shape_arg with
  | .int => .error "NameError: name args is not defined"
  | .uniTuple count =>
    match lookupA s.tuple_table shape_arg with
    | none => .error "KeyError: shape_arg not in tuple_table"
    | some elems => classesFromTuple elems count 0 s
  | _ => .error "AssertionError: shape arg is neither Integer nor UniTuple"

/-- The collection loop of `_broadcast_and_match_shapes` (lines
building `eqs`): each array operand contributes a copy of its recorded
shape vector; the first non-array operand executes
`eqs.append = [0]` — an attribute assignment on a `list` object, which
raises `AttributeError`. -/
def collectEqs (args : List String) (s : AState) : Except String (List (List Int)) :=
  match args with
  | [] => .ok []
  | a :: rest =>
    if _isarray s a then
      match lookupA s.array_shape_classes a with
      | none => .error "KeyError: operand has no recorded shape"
      | some l =>
        match collectEqs rest s with
        | .error msg => .error msg
        | .ok es => .ok (l :: es)
    else .error "AttributeError: list object attribute append is read-only"

/-- The inner loop of `_broadcast_and_match_shapes` for one dimension
index `i`: scan the operand vectors, keeping a running candidate class
`c`; a vector whose class at `i` is neither `0` nor `c` either replaces
a candidate `0` outright or is merged with the candidate. -/
def bcastDim (i : Nat) (es : List (List Int)) (c : Int) (s : AState) : Int × AState :=
  match es with
  | [] => (c, s)
  | e :: rest =>
    let ei := e.getD i 0
    if ei ≠ 0 ∧ ei ≠ c then
      if c = 0 then bcastDim i rest ei s
      else
        let m := _merge_classes c ei s
        bcastDim i rest m.1 m.2
    else bcastDim i rest c s

/-- The outer loop of `_broadcast_and_match_shapes`: for each dimension
index (counting `n` remaining, starting at `i`), run the candidate scan
starting from the first operand's class at that index and collect the
resulting output classes. -/
def bcastDims (eqs : List (List Int)) (i : Nat) : Nat → AState → List Int × AState
  | 0, s => ([], s)
  | n + 1, s =>
    let c0 := (eqs.headD []).getD i 0
    let p := bcastDim i eqs c0 s
    let rest := bcastDims eqs (i + 1) n p.2
    (p.1 :: rest.1, rest.2)

/-- Source: `self._broadcast_and_match_shapes(args)`.  Asserts at least
one operand is an array, collects the operand shape vectors (crashing
on a non-array operand, see `collectEqs`), left-pads every vector with
class `0` to the maximum length (`e.insert(0, 0)` in a while loop), and
computes each output dimension by the candidate scan. -/
def _broadcast_and_match_shapes (args : List String) (s : AState) : Except String (List Int × AState) :=
  if args.any (fun a => _isarray s a) then
    match collectEqs args s with
    | .error msg => .error msg
    | .ok eqs =>
      let ndims := (eqs.map List.length).foldl max 0
      let eqs := eqs.map (fun e => List.replicate (ndims - e.length) 0 ++ e)
      .ok (bcastDims eqs 0 ndims s)
  else .error "AssertionError: no array operand"

/-- Source: `self._analyze_np_call(call_name, args)`.  Arguments are
passed by variable name (the Python code projects `.name` off each
`ir.Var`).  Dispatch in source order: `transpose`; the array-creation
calls; the `_like` calls; `reshape`; `dot`; names in `UFUNC_MAP_OP`;
otherwise print a diagnostic and return the single-dimension unknown
shape `[-1]`. -/
def _analyze_np_call (call_name : String) (args : List String) (s : AState) : Except String (List Int × AState) :=
  if call_name = "transpose" then
    match args.get? 0 with
    | none => .error "IndexError: args is empty"
    | some a0 =>
      match lookupA s.array_shape_classes a0 with
      | none => .error "KeyError: transpose operand has no recorded shape"
      | some l => .ok (l.reverse, s)
  else if call_name = "empty" ∨ call_name = "zeros" ∨ call_name = "ones" then
    match args.get? 0 with
    | none => .error "IndexError: args is empty"
    | some a0 => _get_classes_from_shape a0 s
  else if call_name = "empty_like" ∨ call_name = "zeros_like" ∨ call_name = "ones_like" then
    match args.get? 0 with
    | none => .error "IndexError: args is empty"
    | some a0 =>
      match lookupA s.array_shape_classes a0 with
      | none => .error "KeyError: like operand has no recorded shape"
      | some l => .ok (l, s)
  else if call_name = "reshape" then
    match args.get? 1 with
    | none => .error "IndexError: args has no second element"
    | some a1 => _get_classes_from_shape a1 s
  else if call_name = "dot" then
    if args.length = 2 ∨ args.length = 3 then
      match args.get? 0, args.get? 1 with
      | some in1, some in2 =>
        match lookupA s.array_shape_classes in1, lookupA s.array_shape_classes in2 with
        | some l1, some l2 =>
          match l1.getLast? with
          | none => .error "IndexError: arg1 shape is empty"
          | some c1 =>
            match (if l2.length = 1 then l2.get? 0 else l2.get? (l2.length - 2)) with
            | none => .error "IndexError: arg2 shape too short"
            | some c2 =>
              -- c_inner = self._merge_classes(c1, c2); the merged class is
              -- bound but never appended to the output.
              let m := _merge_classes c1 c2 s
              let s1 := m.2
              -- the output classes are re-read from the (post-merge) table
              let l1' := (lookupA s1.array_shape_classes in1).getD []
              let l2' := (lookupA s1.array_shape_classes in2).getD []
              .ok (l1'.take (l1.length - 1) ++ l2'.take (l2.length - 2) ++
                   (if 1 < l2.length then [l2'.getD (l2.length - 1) (-1)] else []), s1)
        | _, _ => .error "KeyError: dot operand has no recorded shape"
      | _, _ => .error "IndexError: args too short"
    else .error "AssertionError: dot expects 2 or 3 args"
  else if call_name ∈ UFUNC_MAP_OP then
    _broadcast_and_match_shapes args s
  else
    -- print("unknown numpy call:", call_name); return [-1]
    .ok ([-1], s)

/-- Source: `self._analyze_rhs_classes(node)`.  Dispatch over the
right-hand-side node kinds; every branch that falls off the `elif`
chain prints a diagnostic and returns the empty shape. -/
def _analyze_rhs_classes (node : Expr) (s : AState) : Except String (List Int × AState) :=
  match node with
  | .arg name =>
    if _isarray s name then _add_array_corr name s
    else .error "AssertionError: arg is not an array"
  | .var name =>
    match lookupA s.array_shape_classes name with
    | none => .error "KeyError: variable has no recorded shape"
    | some l => .ok (l, s)
  | .unary fnInMapOp value =>
    if fnInMapOp then
      if _isarray s value then
        match lookupA s.array_shape_classes value with
        | none => .error "KeyError: unary operand has no recorded shape"
        | some l => .ok (l, s)
      else .error "AssertionError: unary operand is not an array"
    else .ok ([], s)
  | .binop fnInMapOp lhs rhs =>
    if fnInMapOp then _broadcast_and_match_shapes [lhs, rhs] s
    else .ok ([], s)
  | .inplace_binop fnInMapOp lhs rhs =>
    if fnInMapOp then _broadcast_and_match_shapes [lhs, rhs] s
    else .ok ([], s)
  | .arrayexpr vars => _broadcast_and_match_shapes vars s
  | .cast value =>
    match lookupA s.array_shape_classes value with
    | none => .error "KeyError: cast operand has no recorded shape"
    | some l => .ok (l, s)
  | .call func args =>
    if s.map_calls.contains func then
      match args.get? 0 with
      | none => .error "IndexError: map call with no arguments"
      | some a0 =>
        match lookupA s.array_shape_classes a0 with
        | none => .error "KeyError: map call operand has no recorded shape"
        | some l => .ok (l, s)
    else
      match lookupA s.numpy_calls func with
      | some call_name => _analyze_np_call call_name args s
      | none =>
        match lookupA s.array_attr_calls func with
        | some p => _analyze_np_call p.1 (p.2 :: args) s
        | none => .error "AssertionError: call_name is NULL"
  | .getattr value attr =>
    if _isarray s value ∧ attr = "T" then _analyze_np_call "transpose" [value] s
    else .ok ([], s)
  | _ => .ok ([], s)

/-- Source: `self._gen_size_call(var, i)`.  Synthesizes the three
instructions `A_sh_attr = getattr(A, shape)`, `$constA0 = const(i)`,
`Asize0 = static_getitem(A_sh_attr, i, $constA0)`, typing the new
variables and recording the getitem node in `calltypes`.  Returns the
instruction list together with the size variable's name (the target of
the final instruction, which the caller extracts as
`nodes[-1].target`). -/
def _gen_size_call (varName : String) (i : Nat) (s : AState) : List Inst × String × AState :=
  let ndims := _get_ndims s varName
  let p1 := mk_unique_var (varName ++ "_sh_attr" ++ toString i) s
  let attrName := p1.1
  let s := setType p1.2 attrName (.uniTuple ndims)
  let attrAssign := Inst.assign attrName (.getattr varName "shape")
  let p2 := mk_unique_var ("$const" ++ varName ++ toString i) s
  let constName := p2.1
  let s := setType p2.2 constName .int
  let constAssign := Inst.assign constName (.constInt (Int.ofNat i))
  let p3 := mk_unique_var (varName ++ "size" ++ toString i) s
  let sizeName := p3.1
  let s := setType p3.2 sizeName .int
  let getitemNode := Expr.static_getitem attrName i constName
  let s := {s with calltypes := s.calltypes ++ [getitemNode]}
  let sizeAssign := Inst.assign sizeName getitemNode
  ([attrAssign, constAssign, sizeAssign], sizeName, s)

/-- Python `self.array_size_vars[lhs][i] = v`: update slot `i` of the
variable's size-variable list.  Call sites guarantee the key is present
and `i` is in range. -/
def setSizeVar (s : AState) (lhs : String) (i : Nat) (v : SizeVal) : AState :=
  {s with array_size_vars :=
    insertA s.array_size_vars lhs (((lookupA s.array_size_vars lhs).getD []).set i v)}

/-- The state produced by the generation branch of one iteration of
`_analyze_assign`'s per-dimension loop: run `_gen_size_call`, record
the fresh size variable as the class's `class_sizes` entry when the
class is not `-1`, and store it in the dimension's size slot. -/
def genStepState (lhs : String) (i : Nat) (c : Int) (s : AState) : AState :=
  let g := _gen_size_call lhs i s
  let s2 := if c ≠ -1
    then {g.2.2 with class_sizes := insertA g.2.2.class_sizes c [SizeVal.varV g.2.1]}
    else g.2.2
  setSizeVar s2 lhs i (SizeVal.varV g.2.1)

/-- The per-dimension loop of `_analyze_assign` (the `for (i, corr) in
enumerate(rhs_corr)` loop): if the class is `-1` or has no
`class_sizes` entry, generate the size-materialization instructions
(prepending them to the output; their state effects are `genStepState`,
with `_gen_size_call` pure and deterministic, so naming its value twice
equals the source's single call), record the fresh size variable as the
class's entry when the class is not `-1`, and store it as this
dimension's size variable; otherwise reuse the head of the existing
entry (`self.class_sizes[corr][0]`, an `IndexError` when the entry is
the empty list). -/
def sizeLoop (lhs : String) (corrs : List Int) (i : Nat) (s : AState) : Except String (List Inst × AState) :=
  match corrs with
  | [] => .ok ([], s)
  | corr :: rest =>
    if corr = -1 ∨ lookupA s.class_sizes corr = none then
      (sizeLoop lhs rest (i + 1) (genStepState lhs i corr s)).map
        (fun r => ((_gen_size_call lhs i s).1 ++ r.1, r.2))
    else
      match lookupA s.class_sizes corr with
      | some (v :: _) => sizeLoop lhs rest (i + 1) (setSizeVar s lhs i v)
      | some [] => .error "IndexError: list index out of range"
      | none => .error "unreachable: condition guaranteed an entry"

/-- The tail of `_analyze_assign` past the conflict check (lines
storing the inferred shape and materializing sizes): record the shape,
reset the size-variable list to `[-1] * ndims`, and run the
per-dimension loop. -/
def recordAndMaterialize (lhs : String) (rhs_corr : List Int) (s : AState) : Except String (List Inst × AState) :=
  let s := {s with array_shape_classes := insertA s.array_shape_classes lhs rhs_corr}
  let s :=
    {s with array_size_vars :=
              insertA s.array_size_vars lhs
                (List.replicate (_get_ndims s lhs) (SizeVal.intV (-1)))}
  sizeLoop lhs rhs_corr 0 s

/-- The registry-population part of `_analyze_assign` (its first four
`if` statements): record numpy globals and map-like globals, getattr
accesses on numpy globals or arrays, and statically known tuples. -/
def registryUpdates (lhs : String) (rhs : Expr) (s : AState) : AState :=
  match rhs with
  | .globalUfunc => {s with map_calls := s.map_calls ++ [lhs]}
  | .globalNumpy => {s with numpy_globals := s.numpy_globals ++ [lhs]}
  | .getattr value attr =>
    if s.numpy_globals.contains value then
      {s with numpy_calls := insertA s.numpy_calls lhs attr}
    else if _isarray s value then
      {s with array_attr_calls := insertA s.array_attr_calls lhs (attr, value)}
    else s
  | .build_tuple items =>
    {s with tuple_table := insertA s.tuple_table lhs (items.map SizeVal.varV)}
  | .constTuple items =>
    {s with tuple_table := insertA s.tuple_table lhs (items.map SizeVal.intV)}
  | _ => s

/-- Source: `self._analyze_assign(assign)`.  After the registry
updates, an array-typed target has its right-hand-side shape inferred;
a shape already recorded from another block that differs from the new
inference is the conflict path: the stored shape becomes `[-1] * ndims`
(of the prior rank), the size-variable entry is dropped, a diagnostic
is printed, and no size calls are returned.  Otherwise the shape is
recorded and every dimension is given a backing size variable. -/
def _analyze_assign (lhs : String) (rhs : Expr) (s : AState) : Except String (List Inst × AState) :=
  let s := registryUpdates lhs rhs s
  if _isarray s lhs then
    match _analyze_rhs_classes rhs s with
    | .error msg => .error msg
    | .ok r =>
      let rhs_corr := r.1
      let s1 := r.2
      match lookupA s1.array_shape_classes lhs with
      | some prior =>
        if prior ≠ rhs_corr then
          -- print("incompatible array shapes in control flow"); return []
          .ok ([], {s1 with
            array_shape_classes :=
              insertA s1.array_shape_classes lhs (List.replicate (_get_ndims s1 lhs) (-1)),
            array_size_vars := popA s1.array_size_vars lhs})
        else recordAndMaterialize lhs rhs_corr s1
      | none => recordAndMaterialize lhs rhs_corr s1
  else .ok ([], s)

/-- Source: `self._analyze_inst(inst)` — only assignments are
analyzed; every other instruction generates nothing. -/
def _analyze_inst (inst : Inst) (s : AState) : Except String (List Inst × AState) :=
  match inst with
  | .assign target value => _analyze_assign target value s
  | .other _ => .ok ([], s)

/-- Source: `self._analyze_block(block)` — rebuild the body by
appending, after each original instruction, the size calls it
generated. -/
def _analyze_block (body : List Inst) (s : AState) : Except String (List Inst × AState) :=
  match body with
  | [] => .ok ([], s)
  | inst :: rest =>
    match _analyze_inst inst s with
    | .error msg => .error msg
    | .ok g =>
      match _analyze_block rest g.2 with
      | .error msg => .error msg
      | .ok r => .ok (inst :: g.1 ++ r.1, r.2)

/-- Source: `self.run()` — analyze every block in stored order,
returning the rewritten blocks (the debug dumps have no behavioral
effect). -/
def analysisRun (blocks : List (Nat × List Inst)) (s : AState) : Except String (List (Nat × List Inst) × AState) :=
  match blocks with
  | [] => .ok ([], s)
  | (key, body) :: rest =>
    match _analyze_block body s with
    | .error msg => .error msg
    | .ok g =>
      match analysisRun rest g.2 with
      | .error msg => .error msg
      | .ok r => .ok ((key, g.1) :: r.1, r.2)

/-- The initial state of a run: `__init__` with the externally supplied
type map. -/
def initState (tm : List (String × Typ)) : AState :=
  {typemap := tm}

/-- Specification-side broadcast dimension resolution, following the
claim's wording: the candidate starts as the FIRST operand's class at
the given index and only the OTHER operands are scanned, with the same
adopt-or-merge rule as the source's inner loop. -/
def specBcastDims (first : List Int) (others : List (List Int)) (i : Nat) : Nat → AState → List Int × AState
  | 0, s => ([], s)
  | n + 1, s =>
    let p := bcastDim i others (first.getD i 0) s
    let rest := specBcastDims first others (i + 1) n p.2
    (p.1 :: rest.1, rest.2)

/-- Specification-side broadcast resolver, following the claim's
wording: let ndims be the maximum operand rank, left-pad every shape
vector with class 0 to length ndims, and resolve each dimension
starting from the first operand's class. -/
def broadcastSpec (shapes : List (List Int)) (s : AState) : List Int × AState :=
  let ndims := (shapes.map List.length).foldl max 0
  let padded := shapes.map (fun e => List.replicate (ndims - e.length) 0 ++ e)
  match padded with
  | [] => ([], s)
  | first :: others => specBcastDims first others 0 ndims s

/-- Concrete state for the C1 witness: two rank-2 arrays with shape
vectors [5, 0] and [0, 7]. -/
def sW1 : AState :=
  {initState [("a", .array 2), ("b", .array 2)] with
    array_shape_classes := [("a", [5, 0]), ("b", [0, 7])], next_eq_class := 8}

/-- Concrete state for the C2 witness: classes 1, 2, 3 allocated,
each with one representative, appearing in the shapes of x and y. -/
def sW2 : AState :=
  {initState [] with
    array_shape_classes := [("x", [1, 3]), ("y", [2])],
    class_sizes := [(0, [SizeVal.intV 1]), (1, [SizeVal.varV "a"]),
                    (2, [SizeVal.varV "b"]), (3, [SizeVal.varV "c"])],
    next_eq_class := 4}

/-- Concrete state for the C3 witness: a of shape [1, 2] = [m, k] and
b of shape [3, 4] = [k2, n]. -/
def sW3 : AState :=
  {initState [("a", .array 2), ("b", .array 2)] with
    array_shape_classes := [("a", [1, 2]), ("b", [3, 4])],
    class_sizes := [(0, [SizeVal.intV 1]), (1, [SizeVal.varV "m"]),
                    (2, [SizeVal.varV "k"]), (3, [SizeVal.varV "k2"]),
                    (4, [SizeVal.varV "n"])],
    next_eq_class := 5}

/-- Concrete state for the C4 witness: class 7 already has a
representative size variable w, class 5 has none. -/
def sW4 : AState :=
  {initState [("A", .array 2)] with
    array_shape_classes := [("A", [5, 7])],
    class_sizes := [(0, [SizeVal.intV 1]), (7, [SizeVal.varV "w"])],
    array_size_vars := [("A", [SizeVal.intV (-1), SizeVal.intV (-1)])],
    next_eq_class := 8}

/-- Concrete state for the C5 witness: v already recorded with shape
[1, 2] (and size variables), w recorded with shape [1, 3]. -/
def sW5 : AState :=
  {initState [("v", .array 2), ("w", .array 2)] with
    array_shape_classes := [("v", [1, 2]), ("w", [1, 3])],
    array_size_vars := [("v", [SizeVal.varV "s1", SizeVal.varV "s2"])],
    next_eq_class := 4}

/-- Concrete state for the C6 witness: q is registered in the
numpy-call registry under a name no rule matches. -/
def sW6 : AState :=
  {initState [("t", .array 1)] with numpy_calls := [("q", "mystery")]}

/-- Concrete state for the C7 theorem: a rank-1 array A and a scalar
integer c, as produced by a registered universal-function call with one
array and one non-array operand. -/
def sW7 : AState :=
  {initState [("A", .array 1), ("c", .int)] with
    array_shape_classes := [("A", [1])], next_eq_class := 2}

/-- Type map for the C9 program: g and f are the numpy global and the
call variable, X, A, B are rank-1 arrays. -/
def tm9 : List (String × Typ) :=
  [("g", .other), ("f", .other), ("X", .array 1), ("A", .array 1), ("B", .array 1)]

/-- First four instructions of the C9 program: import numpy, take an
unrecognized attribute f of it, call it into X (an unknown call, so X's
recorded shape becomes [-1]), and bind the array parameter A (fresh
class 1). -/
def blk9pre : List Inst :=
  [ .assign "g" .globalNumpy,
    .assign "f" (.getattr "g" "foobar"),
    .assign "X" (.call "f" []),
    .assign "A" (.arg "A") ]

/-- The full C9 program: additionally an elementwise binary operation
on X and A, whose broadcast resolution reaches
`_merge_classes (-1) 1`. -/
def blk9 : List Inst :=
  blk9pre ++ [.assign "B" (.binop true "X" "A")]

/-- Reading back the key just written by a dict write. -/
theorem lookupA_insertA_self {α β : Type} [DecidableEq α] (l : List (α × β)) (k : α) (v : β) :
    lookupA (insertA l k v) k = some v := by
  induction l with
  | nil => simp [insertA, lookupA]
  | cons p rest ih =>
    obtain ⟨a, b⟩ := p
    by_cases h : a = k
    · simp [insertA, h, lookupA]
    · simp [insertA, h, lookupA, ih]

/-- A dict write leaves every other key's value unchanged. -/
theorem lookupA_insertA_ne {α β : Type} [DecidableEq α] (l : List (α × β)) (k k' : α) (v : β)
    (h : k' ≠ k) : lookupA (insertA l k v) k' = lookupA l k' := by
  have hk : ¬k = k' := fun hh => h hh.symm
  induction l with
  | nil => simp [insertA, lookupA, hk]
  | cons p rest ih =>
    obtain ⟨a, b⟩ := p
    by_cases ha : a = k
    · subst ha
      simp [insertA, lookupA, hk]
    · simp [insertA, ha, lookupA, ih]

/-- A popped key is gone. -/
theorem lookupA_popA_self {α β : Type} [DecidableEq α] (l : List (α × β)) (k : α) :
    lookupA (popA l k) k = none := by
  induction l with
  | nil => simp [popA, lookupA]
  | cons p rest ih =>
    obtain ⟨a, b⟩ := p
    by_cases ha : a = k
    · simp [popA, ha, ih]
    · simp [popA, ha, lookupA, ih]

/-- Popping a key leaves every other key's value unchanged. -/
theorem lookupA_popA_ne {α β : Type} [DecidableEq α] (l : List (α × β)) (k k' : α)
    (h : k' ≠ k) : lookupA (popA l k) k' = lookupA l k' := by
  induction l with
  | nil => simp [popA]
  | cons p rest ih =>
    obtain ⟨a, b⟩ := p
    by_cases ha : a = k
    · subst ha
      have hk : ¬a = k' := fun hh => h hh.symm
      simp [popA, lookupA, hk, ih]
    · simp [popA, ha, lookupA, ih]

/-- Lookup into a value-mapped association list. -/
theorem lookupA_map_values {α β γ : Type} [DecidableEq α] (f : β → γ) (l : List (α × β)) (k : α) :
    lookupA (l.map (fun e => (e.1, f e.2))) k = (lookupA l k).map f := by
  induction l with
  | nil => simp [lookupA]
  | cons p rest ih =>
    obtain ⟨a, b⟩ := p
    by_cases ha : a = k
    · simp [lookupA, ha]
    · simp [lookupA, ha, ih]

/-- A successful lookup comes from an entry of the list. -/
theorem lookupA_mem {α β : Type} [DecidableEq α] (l : List (α × β)) (k : α) (v : β)
    (h : lookupA l k = some v) : (k, v) ∈ l := by
  induction l with
  | nil => simp [lookupA] at h
  | cons p rest ih =>
    obtain ⟨a, b⟩ := p
    by_cases ha : a = k
    · subst ha
      simp [lookupA] at h
      subst h
      exact List.mem_cons_self _ _
    · simp [lookupA, ha] at h
      exact List.mem_cons_of_mem _ (ih h)

/-- Unequal classes: the merged class is the freshly allocated one. -/
theorem merge_fst {s : AState} {c1 c2 : Int} (h : c1 ≠ c2) :
    (_merge_classes c1 c2 s).1 = s.next_eq_class := by
  simp [_merge_classes, h, _get_next_class]

/-- Unequal classes: the merge bumps the class counter. -/
theorem merge_next {s : AState} {c1 c2 : Int} (h : c1 ≠ c2) :
    (_merge_classes c1 c2 s).2.next_eq_class = s.next_eq_class + 1 := by
  simp [_merge_classes, h, _get_next_class]

/-- Unequal classes: the shape table after a merge is the old table
with every occurrence of either class rewritten to the fresh class. -/
theorem merge_shapes {s : AState} {c1 c2 : Int} (h : c1 ≠ c2) :
    (_merge_classes c1 c2 s).2.array_shape_classes =
      s.array_shape_classes.map
        (fun e => (e.1, e.2.map (fun x => if x = c1 ∨ x = c2 then s.next_eq_class else x))) := by
  simp [_merge_classes, h, _get_next_class]

/-- Unequal classes: the class-size table after a merge. -/
theorem merge_sizes {s : AState} {c1 c2 : Int} (h : c1 ≠ c2) :
    (_merge_classes c1 c2 s).2.class_sizes =
      insertA (popA (popA s.class_sizes c1) c2) s.next_eq_class
        ((lookupA s.class_sizes c1).getD [] ++ (lookupA s.class_sizes c2).getD []) := by
  simp [_merge_classes, h, _get_next_class]

/-- Per-variable form of `merge_shapes`. -/
theorem merge_lookup_shape {s : AState} {c1 c2 : Int} (h : c1 ≠ c2) (v : String) :
    lookupA (_merge_classes c1 c2 s).2.array_shape_classes v =
      (lookupA s.array_shape_classes v).map
        (List.map (fun x => if x = c1 ∨ x = c2 then s.next_eq_class else x)) := by
  rw [merge_shapes h, lookupA_map_values]

/-- C2: merging a class with itself returns it and changes no state;
merging distinct allocated classes c1, c2 yields the fresh class c3
(the current counter value), rewrites every occurrence of c1 or c2 in
every recorded ShapeVector to c3 — so no recorded ShapeVector contains
c1 or c2 afterwards — and maps c3 in the ClassSizeTable to c1's
representative list followed by c2's with the entries for c1 and c2
removed; and merging is transitive: after merging c1 with c2 and the
result with C, every ShapeVector entry previously equal to c1, c2 or C
equals the same final class, whose representative list is the
concatenation of all three original lists. -/
theorem C2_merge_classes (s : AState) (c1 c2 C : Int)
    (h1 : c1 < s.next_eq_class) (h2 : c2 < s.next_eq_class) (hC : C < s.next_eq_class) :
    (c1 = c2 → _merge_classes c1 c2 s = (c1, s)) ∧
    (c1 ≠ c2 →
      (_merge_classes c1 c2 s).1 = s.next_eq_class ∧
      (∀ v l, lookupA s.array_shape_classes v = some l →
        lookupA (_merge_classes c1 c2 s).2.array_shape_classes v =
          some (l.map (fun x => if x = c1 ∨ x = c2 then s.next_eq_class else x))) ∧
      (∀ v l, lookupA (_merge_classes c1 c2 s).2.array_shape_classes v = some l →
        c1 ∉ l ∧ c2 ∉ l) ∧
      lookupA (_merge_classes c1 c2 s).2.class_sizes s.next_eq_class =
        some ((lookupA s.class_sizes c1).getD [] ++ (lookupA s.class_sizes c2).getD []) ∧
      lookupA (_merge_classes c1 c2 s).2.class_sizes c1 = none ∧
      lookupA (_merge_classes c1 c2 s).2.class_sizes c2 = none) ∧
    (c1 ≠ c2 → c1 ≠ C → c2 ≠ C →
      (∀ e ∈ s.array_shape_classes, ∀ x ∈ e.2, x < s.next_eq_class) →
      (∀ v l, lookupA s.array_shape_classes v = some l →
        lookupA (_merge_classes (_merge_classes c1 c2 s).1 C
            (_merge_classes c1 c2 s).2).2.array_shape_classes v =
          some (l.map (fun x => if x = c1 ∨ x = c2 ∨ x = C then
            (_merge_classes (_merge_classes c1 c2 s).1 C (_merge_classes c1 c2 s).2).1
            else x))) ∧
      lookupA (_merge_classes (_merge_classes c1 c2 s).1 C
          (_merge_classes c1 c2 s).2).2.class_sizes
          (_merge_classes (_merge_classes c1 c2 s).1 C (_merge_classes c1 c2 s).2).1 =
        some (((lookupA s.class_sizes c1).getD [] ++ (lookupA s.class_sizes c2).getD []) ++
          (lookupA s.class_sizes C).getD [])) := by
  refine ⟨fun h => by simp [_merge_classes, h], fun h => ?_, fun h hc1C hc2C hbound => ?_⟩
  · refine ⟨merge_fst h, ?_, ?_, ?_, ?_, ?_⟩
    · intro v l hl
      rw [merge_lookup_shape h, hl]
      rfl
    · intro v l hl
      rw [merge_lookup_shape h] at hl
      cases hold : lookupA s.array_shape_classes v with
      | none => rw [hold] at hl; simp at hl
      | some l0 =>
        rw [hold] at hl
        simp only [Option.map_some'] at hl
        injection hl with hl
        subst hl
        constructor
        · intro hmem
          obtain ⟨x, _, hsx⟩ := List.mem_map.mp hmem
          by_cases hc : x = c1 ∨ x = c2
          · rw [if_pos hc] at hsx; omega
          · rw [if_neg hc] at hsx; exact hc (Or.inl hsx)
        · intro hmem
          obtain ⟨x, _, hsx⟩ := List.mem_map.mp hmem
          by_cases hc : x = c1 ∨ x = c2
          · rw [if_pos hc] at hsx; omega
          · rw [if_neg hc] at hsx; exact hc (Or.inr hsx)
    · rw [merge_sizes h, lookupA_insertA_self]
    · rw [merge_sizes h, lookupA_insertA_ne _ _ _ _ (by omega),
        lookupA_popA_ne _ _ _ h, lookupA_popA_self]
    · rw [merge_sizes h, lookupA_insertA_ne _ _ _ _ (by omega), lookupA_popA_self]
  · have hdC : (_merge_classes c1 c2 s).1 ≠ C := by rw [merge_fst h]; omega
    constructor
    · intro v l hl
      rw [merge_fst hdC, merge_lookup_shape hdC, merge_lookup_shape h, hl]
      simp only [Option.map_some', List.map_map]
      congr 1
      apply List.map_congr_left
      intro x hx
      have hxb : x < s.next_eq_class := hbound _ (lookupA_mem _ _ _ hl) x hx
      simp only [Function.comp_apply]
      by_cases hx12 : x = c1 ∨ x = c2
      · rw [if_pos hx12, if_pos (Or.inl (merge_fst h).symm),
          if_pos (by tauto : x = c1 ∨ x = c2 ∨ x = C)]
      · rw [if_neg hx12]
        by_cases hxC : x = C
        · rw [if_pos (Or.inr hxC), if_pos (by tauto : x = c1 ∨ x = c2 ∨ x = C)]
        · rw [if_neg (by rw [merge_fst h]; push_neg; exact ⟨by omega, hxC⟩),
            if_neg (by tauto : ¬(x = c1 ∨ x = c2 ∨ x = C))]
    · have hd1 : lookupA (_merge_classes c1 c2 s).2.class_sizes (_merge_classes c1 c2 s).1 =
          some ((lookupA s.class_sizes c1).getD [] ++ (lookupA s.class_sizes c2).getD []) := by
        rw [merge_fst h, merge_sizes h, lookupA_insertA_self]
      have hC1 : lookupA (_merge_classes c1 c2 s).2.class_sizes C = lookupA s.class_sizes C := by
        rw [merge_sizes h, lookupA_insertA_ne _ _ _ _ (by omega),
          lookupA_popA_ne _ _ _ (Ne.symm hc2C), lookupA_popA_ne _ _ _ (Ne.symm hc1C)]
      rw [merge_fst hdC, merge_sizes hdC, lookupA_insertA_self, hd1, hC1]
      rfl

/-- Closed instance of C2 at a concrete state: merging 1 with itself is
the identity; merging the distinct classes 1 and 2 of `sW2` yields
class 4, rewrites x's shape [1, 3] to [4, 3], gives class 4 the size
list of 1 followed by that of 2, and removes the entries of 1 and 2;
merging the result with class 3 folds all three into one class whose
size list concatenates all three original lists. -/
theorem C2_witness :
    _merge_classes 1 1 sW2 = (1, sW2) ∧
    lookupA (_merge_classes 1 2 sW2).2.array_shape_classes "x" = some [4, 3] ∧
    lookupA (_merge_classes 1 2 sW2).2.class_sizes 4 =
      some [SizeVal.varV "a", SizeVal.varV "b"] ∧
    lookupA (_merge_classes 1 2 sW2).2.class_sizes 1 = none ∧
    lookupA (_merge_classes 1 2 sW2).2.class_sizes 2 = none ∧
    lookupA (_merge_classes (_merge_classes 1 2 sW2).1 3
        (_merge_classes 1 2 sW2).2).2.array_shape_classes "x" = some [5, 5] ∧
    lookupA (_merge_classes (_merge_classes 1 2 sW2).1 3
        (_merge_classes 1 2 sW2).2).2.class_sizes
        (_merge_classes (_merge_classes 1 2 sW2).1 3 (_merge_classes 1 2 sW2).2).1 =
      some [SizeVal.varV "a", SizeVal.varV "b", SizeVal.varV "c"] := by
  have H1 := C2_merge_classes sW2 1 1 3 (by decide) (by decide) (by decide)
  have H := C2_merge_classes sW2 1 2 3 (by decide) (by decide) (by decide)
  have H2 := H.2.1 (by decide)
  have H3 := H.2.2 (by decide) (by decide) (by decide) (by decide)
  refine ⟨H1.1 rfl, ?_, ?_, ?_, ?_, ?_, ?_⟩
  · simpa using H2.2.1 "x" [1, 3] (by rfl)
  · simpa using H2.2.2.2.1
  · exact H2.2.2.2.2.1
  · exact H2.2.2.2.2.2
  · simpa using H3.1 "x" [1, 3] (by rfl)
  · simpa using H3.2

/-- The size-call generator leaves the class-size table untouched (it
only creates variables, types them and records a call type). -/
theorem gen_size_call_class_sizes (lhs : String) (i : Nat) (s : AState) :
    (_gen_size_call lhs i s).2.2.class_sizes = s.class_sizes := by
  unfold _gen_size_call setType mk_unique_var
  rfl

/-- The size-call generator leaves the size-variable table untouched. -/
theorem gen_size_call_size_vars (lhs : String) (i : Nat) (s : AState) :
    (_gen_size_call lhs i s).2.2.array_size_vars = s.array_size_vars := by
  unfold _gen_size_call setType mk_unique_var
  rfl

/-- The size-call generator leaves the shape table untouched. -/
theorem gen_size_call_shapes (lhs : String) (i : Nat) (s : AState) :
    (_gen_size_call lhs i s).2.2.array_shape_classes = s.array_shape_classes := by
  unfold _gen_size_call setType mk_unique_var
  rfl

/-- The generation step of the size loop leaves the shape table
untouched. -/
theorem genStepState_shapes (lhs : String) (i : Nat) (c : Int) (s : AState) :
    (genStepState lhs i c s).array_shape_classes = s.array_shape_classes := by
  by_cases hc : c = -1
  · simp [genStepState, setSizeVar, hc, gen_size_call_shapes]
  · simp [genStepState, setSizeVar, hc, gen_size_call_shapes]

/-- When every operand is an array with a recorded shape, the
collection loop yields exactly the recorded shape vectors. -/
theorem collectEqs_ok (args : List String) (s : AState)
    (h : ∀ a ∈ args, _isarray s a = true ∧ (lookupA s.array_shape_classes a).isSome = true) :
    collectEqs args s =
      .ok (args.map (fun a => (lookupA s.array_shape_classes a).getD [])) := by
  induction args with
  | nil => rfl
  | cons a rest ih =>
    obtain ⟨ha, hsome⟩ := h a (List.mem_cons_self _ _)
    obtain ⟨l, hl⟩ := Option.isSome_iff_exists.mp hsome
    have ih' := ih (fun x hx => h x (List.mem_cons_of_mem _ hx))
    simp [collectEqs, ha, hl, ih']

/-- Scanning the first operand with its own class as the candidate is a
no-op, so the source's scan over all operands equals the claim's scan
over the other operands. -/
theorem bcastDim_skip_head (i : Nat) (e : List Int) (rest : List (List Int)) (s : AState) :
    bcastDim i (e :: rest) (e.getD i 0) s = bcastDim i rest (e.getD i 0) s := by
  simp [bcastDim]

/-- The source's per-dimension loop over all operands coincides with
the specification's loop over the operands after the first. -/
theorem bcastDims_eq_spec (f : List Int) (o : List (List Int)) :
    ∀ (n i : Nat) (s : AState), bcastDims (f :: o) i n s = specBcastDims f o i n s := by
  intro n
  induction n with
  | zero => intro i s; rfl
  | succ n ih =>
    intro i s
    simp only [bcastDims, specBcastDims, List.headD_cons]
    rw [bcastDim_skip_head, ih]

/-- The specification-side loop produces one output class per
dimension. -/
theorem specBcastDims_length (f : List Int) (o : List (List Int)) :
    ∀ (n i : Nat) (s : AState), (specBcastDims f o i n s).1.length = n := by
  intro n
  induction n with
  | zero => intro i s; rfl
  | succ n ih => intro i s; simp [specBcastDims, ih]

/-- C1: for a broadcast over operands that are all array variables with
recorded shape vectors, the resolver computes exactly the
specification's algorithm — result length is the maximum operand rank,
every operand vector is left-padded with class 0, and each output
dimension starts from the first operand's class and folds the other
operands by the adopt-or-merge rule; in particular broadcasting
[ca, 0] with [0, cb] (ca, cb nonzero) yields [ca, cb]. -/
theorem C1_broadcast_resolver :
    (∀ (s : AState) (args : List String), args ≠ [] →
      (∀ a ∈ args, _isarray s a = true ∧ (lookupA s.array_shape_classes a).isSome = true) →
      _broadcast_and_match_shapes args s =
        .ok (broadcastSpec (args.map (fun a => (lookupA s.array_shape_classes a).getD [])) s) ∧
      (∀ out s1, _broadcast_and_match_shapes args s = .ok (out, s1) →
        out.length =
          (args.map (fun a => ((lookupA s.array_shape_classes a).getD []).length)).foldl max 0)) ∧
    (∀ (s : AState) (a b : String) (ca cb : Int),
      _isarray s a = true → _isarray s b = true →
      lookupA s.array_shape_classes a = some [ca, 0] →
      lookupA s.array_shape_classes b = some [0, cb] →
      ca ≠ 0 → cb ≠ 0 →
      _broadcast_and_match_shapes [a, b] s = .ok ([ca, cb], s)) := by
  constructor
  · intro s args hne hall
    have hc := collectEqs_ok args s hall
    cases args with
    | nil => exact absurd rfl hne
    | cons a0 rest =>
      have hany : ((a0 :: rest).any (fun a => _isarray s a)) = true :=
        List.any_eq_true.mpr ⟨a0, List.mem_cons_self _ _, (hall a0 (List.mem_cons_self _ _)).1⟩
      have heq : _broadcast_and_match_shapes (a0 :: rest) s =
          .ok (broadcastSpec ((a0 :: rest).map
            (fun a => (lookupA s.array_shape_classes a).getD [])) s) := by
        simp only [_broadcast_and_match_shapes, hany, if_true, hc, broadcastSpec, List.map_cons]
        rw [bcastDims_eq_spec]
      refine ⟨heq, ?_⟩
      intro out s1 hout
      rw [heq] at hout
      injection hout with hout
      have hlen : out = (broadcastSpec ((a0 :: rest).map
          (fun a => (lookupA s.array_shape_classes a).getD [])) s).1 := by rw [hout]
      rw [hlen]
      simp only [broadcastSpec, List.map_cons, specBcastDims_length, List.length_cons]
      simp only [List.map_map]
      rfl
  · intro s a b ca cb haA hbA hla hlb hca hcb
    have hc : collectEqs [a, b] s = .ok [[ca, 0], [0, cb]] := by
      have := collectEqs_ok [a, b] s (by
        intro x hx
        simp only [List.mem_cons, List.not_mem_nil, or_false] at hx
        rcases hx with rfl | rfl
        · exact ⟨haA, by rw [hla]; rfl⟩
        · exact ⟨hbA, by rw [hlb]; rfl⟩)
      simpa [hla, hlb] using this
    have hany : (([a, b] : List String).any (fun x => _isarray s x)) = true := by
      simp [haA]
    simp only [_broadcast_and_match_shapes, hany, if_true, hc]
    simp [bcastDims, bcastDim, hca, hcb]

/-- Closed instance of C1: the broadcast of shapes [5, 0] and [0, 7]
in the concrete state `sW1` matches the specification-side resolver and
equals [5, 7] with the state unchanged. -/
theorem C1_witness :
    _broadcast_and_match_shapes ["a", "b"] sW1 =
      .ok (broadcastSpec [[5, 0], [0, 7]] sW1) ∧
    _broadcast_and_match_shapes ["a", "b"] sW1 = .ok ([5, 7], sW1) := by
  refine ⟨?_, ?_⟩
  · exact (C1_broadcast_resolver.1 sW1 ["a", "b"] (by decide) (by decide)).1
  · exact C1_broadcast_resolver.2 sW1 "a" "b" 5 7 (by rfl) (by rfl) (by rfl) (by rfl)
      (by decide) (by decide)

/-- C3: for dot(a, b) with recorded operand shapes, the class of a's
last dimension is merged with b's only dimension (rank 1) or b's
second-to-last dimension (rank at least 2); the returned shape is a's
first r1-1 classes, then b's first r2-2 classes, then b's last class
when r2 is at least 2 — the contracted position is never inserted.  For
rank-2 shapes [m, k] and [k2, n] with k, k2 distinct (and m, n classes
of their own), k and k2 are merged and the result is exactly [m, n],
not containing the merged class. -/
theorem C3_dot_shape :
    (∀ (s : AState) (a b : String) (la lb : List Int) (c1 c2 : Int),
      lookupA s.array_shape_classes a = some la →
      lookupA s.array_shape_classes b = some lb →
      la.getLast? = some c1 →
      (if lb.length = 1 then lb.get? 0 else lb.get? (lb.length - 2)) = some c2 →
      _analyze_np_call "dot" [a, b] s =
        .ok (((lookupA (_merge_classes c1 c2 s).2.array_shape_classes a).getD []).take (la.length - 1) ++
             ((lookupA (_merge_classes c1 c2 s).2.array_shape_classes b).getD []).take (lb.length - 2) ++
             (if 1 < lb.length then
                [((lookupA (_merge_classes c1 c2 s).2.array_shape_classes b).getD []).getD (lb.length - 1) (-1)]
              else []), (_merge_classes c1 c2 s).2)) ∧
    (∀ (s : AState) (a b : String) (m k k2 n : Int),
      lookupA s.array_shape_classes a = some [m, k] →
      lookupA s.array_shape_classes b = some [k2, n] →
      k ≠ k2 → m ≠ k → m ≠ k2 → n ≠ k → n ≠ k2 →
      m < s.next_eq_class → n < s.next_eq_class →
      _analyze_np_call "dot" [a, b] s = .ok ([m, n], (_merge_classes k k2 s).2) ∧
      lookupA (_merge_classes k k2 s).2.array_shape_classes a = some [m, s.next_eq_class] ∧
      lookupA (_merge_classes k k2 s).2.array_shape_classes b = some [s.next_eq_class, n] ∧
      (_merge_classes k k2 s).1 ∉ ([m, n] : List Int)) := by
  have hgen : ∀ (s : AState) (a b : String) (la lb : List Int) (c1 c2 : Int),
      lookupA s.array_shape_classes a = some la →
      lookupA s.array_shape_classes b = some lb →
      la.getLast? = some c1 →
      (if lb.length = 1 then lb.get? 0 else lb.get? (lb.length - 2)) = some c2 →
      _analyze_np_call "dot" [a, b] s =
        .ok (((lookupA (_merge_classes c1 c2 s).2.array_shape_classes a).getD []).take (la.length - 1) ++
             ((lookupA (_merge_classes c1 c2 s).2.array_shape_classes b).getD []).take (lb.length - 2) ++
             (if 1 < lb.length then
                [((lookupA (_merge_classes c1 c2 s).2.array_shape_classes b).getD []).getD (lb.length - 1) (-1)]
              else []), (_merge_classes c1 c2 s).2) := by
    intro s a b la lb c1 c2 hla hlb hc1 hc2
    have hc2' : (if lb.length = 1 then lb[0]? else lb[lb.length - 2]?) = some c2 := by
      simpa using hc2
    simp [_analyze_np_call, hla, hlb, hc1, hc2']
  refine ⟨hgen, ?_⟩
  intro s a b m k k2 n hla hlb hkk hmk hmk2 hnk hnk2 hm hn
  have H := hgen s a b [m, k] [k2, n] k k2 hla hlb (by rfl) (by rfl)
  have hsa : lookupA (_merge_classes k k2 s).2.array_shape_classes a =
      some [m, s.next_eq_class] := by
    rw [merge_lookup_shape hkk, hla]
    simp [hmk, hmk2]
  have hsb : lookupA (_merge_classes k k2 s).2.array_shape_classes b =
      some [s.next_eq_class, n] := by
    rw [merge_lookup_shape hkk, hlb]
    simp [hnk, hnk2]
  refine ⟨?_, hsa, hsb, ?_⟩
  · rw [H, hsa, hsb]
    rfl
  · rw [merge_fst hkk]
    simp only [List.mem_cons, List.not_mem_nil, or_false]
    push_neg
    exact ⟨by omega, by omega⟩

/-- Closed instance of C3: in `sW3`, dot of a [1, 2] with b [3, 4]
merges classes 2 and 3 into the fresh class 5 and returns [1, 4], with
both recorded shapes rewritten to use class 5 in the contracted
position. -/
theorem C3_witness :
    _analyze_np_call "dot" ["a", "b"] sW3 = .ok ([1, 4], (_merge_classes 2 3 sW3).2) ∧
    lookupA (_merge_classes 2 3 sW3).2.array_shape_classes "a" = some [1, 5] ∧
    lookupA (_merge_classes 2 3 sW3).2.array_shape_classes "b" = some [5, 4] := by
  have H := C3_dot_shape.2 sW3 "a" "b" 1 2 3 4 (by rfl) (by rfl) (by decide) (by decide)
    (by decide) (by decide) (by decide) (by decide) (by decide)
  exact ⟨H.1, H.2.1, H.2.2.1⟩

/-- C4: in the per-dimension loop of an array assignment, the
size-materialization sequence — read the array's shape attribute,
select the element at the dimension index, bind it to a fresh
variable — is emitted exactly when the dimension's class is -1 or has
no ClassSizeTable entry; the fresh variable becomes the class's
representative only when the class is not -1; when the class already
has a representative, no instructions are emitted and the existing
representative is reused as the dimension's size variable. -/
theorem C4_materialization :
    (∀ (s : AState) (lhs : String) (c : Int) (rest : List Int) (i : Nat),
      c = -1 ∨ lookupA s.class_sizes c = none →
      sizeLoop lhs (c :: rest) i s =
        (sizeLoop lhs rest (i + 1) (genStepState lhs i c s)).map
          (fun r => ((_gen_size_call lhs i s).1 ++ r.1, r.2)) ∧
      (∃ attrN constN sizeN,
        (_gen_size_call lhs i s).1 =
          [Inst.assign attrN (Expr.getattr lhs "shape"),
           Inst.assign constN (Expr.constInt (Int.ofNat i)),
           Inst.assign sizeN (Expr.static_getitem attrN i constN)] ∧
        (_gen_size_call lhs i s).2.1 = sizeN) ∧
      (c ≠ -1 →
        lookupA (genStepState lhs i c s).class_sizes c =
          some [SizeVal.varV (_gen_size_call lhs i s).2.1]) ∧
      (c = -1 → (genStepState lhs i c s).class_sizes = s.class_sizes) ∧
      lookupA (genStepState lhs i c s).array_size_vars lhs =
        some (((lookupA s.array_size_vars lhs).getD []).set i
          (SizeVal.varV (_gen_size_call lhs i s).2.1))) ∧
    (∀ (s : AState) (lhs : String) (c : Int) (rest : List Int) (i : Nat)
        (v : SizeVal) (vs : List SizeVal),
      c ≠ -1 → lookupA s.class_sizes c = some (v :: vs) →
      sizeLoop lhs (c :: rest) i s = sizeLoop lhs rest (i + 1) (setSizeVar s lhs i v)) := by
  constructor
  · intro s lhs c rest i h
    refine ⟨?_, ?_, ?_, ?_, ?_⟩
    · simp only [sizeLoop]
      rw [if_pos h]
    · exact ⟨_, _, _, rfl, rfl⟩
    · intro hc
      have hcs : (genStepState lhs i c s).class_sizes =
          insertA s.class_sizes c [SizeVal.varV (_gen_size_call lhs i s).2.1] := by
        simp [genStepState, setSizeVar, hc, gen_size_call_class_sizes]
      rw [hcs]
      exact lookupA_insertA_self _ _ _
    · intro hc
      simp [genStepState, setSizeVar, hc, gen_size_call_class_sizes]
    · have hsv : (genStepState lhs i c s).array_size_vars =
          insertA s.array_size_vars lhs
            (((lookupA s.array_size_vars lhs).getD []).set i
              (SizeVal.varV (_gen_size_call lhs i s).2.1)) := by
        by_cases hc : c = -1
        · simp [genStepState, setSizeVar, hc, gen_size_call_size_vars]
        · simp [genStepState, setSizeVar, hc, gen_size_call_size_vars]
      rw [hsv]
      exact lookupA_insertA_self _ _ _
  · intro s lhs c rest i v vs hc hl
    have hcond : ¬(c = -1 ∨ lookupA s.class_sizes c = none) := by
      push_neg
      exact ⟨hc, by rw [hl]; simp⟩
    simp only [sizeLoop]
    rw [if_neg hcond, hl]

/-- Closed instance of C4 in the state `sW4`: class 7 already has the
representative w, so its dimension reuses w and emits nothing; class 5
has no entry, so its dimension emits the generation sequence and
records the fresh size variable as class 5's representative. -/
theorem C4_witness :
    sizeLoop "A" [7] 1 sW4 = sizeLoop "A" [] 2 (setSizeVar sW4 "A" 1 (SizeVal.varV "w")) ∧
    sizeLoop "A" [5] 0 sW4 =
      (sizeLoop "A" [] 1 (genStepState "A" 0 5 sW4)).map
        (fun r => ((_gen_size_call "A" 0 sW4).1 ++ r.1, r.2)) ∧
    lookupA (genStepState "A" 0 5 sW4).class_sizes 5 =
      some [SizeVal.varV (_gen_size_call "A" 0 sW4).2.1] := by
  have H1 := C4_materialization.1 sW4 "A" 5 [] 0 (by decide)
  have H2 := C4_materialization.2 sW4 "A" 7 [] 1 (SizeVal.varV "w") [] (by decide) (by rfl)
  exact ⟨H2, H1.1, H1.2.2.1 (by decide)⟩

/-- A successful run of the size loop never changes the shape table. -/
theorem sizeLoop_shapes (lhs : String) :
    ∀ (corrs : List Int) (i : Nat) (s : AState) (out : List Inst) (s1 : AState),
      sizeLoop lhs corrs i s = .ok (out, s1) →
      s1.array_shape_classes = s.array_shape_classes := by
  intro corrs
  induction corrs with
  | nil =>
    intro i s out s1 h
    simp only [sizeLoop] at h
    injection h with h
    injection h with h1 h2
    rw [← h2]
  | cons corr rest ih =>
    intro i s out s1 h
    simp only [sizeLoop] at h
    by_cases hcond : corr = -1 ∨ lookupA s.class_sizes corr = none
    · rw [if_pos hcond] at h
      cases hrec : sizeLoop lhs rest (i + 1) (genStepState lhs i corr s) with
      | error e => rw [hrec] at h; simp [Except.map] at h
      | ok r =>
        rw [hrec] at h
        simp only [Except.map] at h
        injection h with h
        injection h with h1 h2
        rw [← h2, ih (i + 1) (genStepState lhs i corr s) r.1 r.2 (by rw [hrec]),
          genStepState_shapes]
    · rw [if_neg hcond] at h
      cases hl : lookupA s.class_sizes corr with
      | none => rw [hl] at h; simp at h
      | some l =>
        cases l with
        | nil => rw [hl] at h; simp at h
        | cons v vs =>
          rw [hl] at h
          rw [ih (i + 1) (setSizeVar s lhs i v) out s1 h]
          simp [setSizeVar]

/-- C5: when an array variable already has a recorded shape and a new
inference differs by value, the stored shape is replaced by a vector of
-1 of the variable's (prior) rank, the size-backing entry is removed,
and the assignment completes non-fatally with no emitted instructions;
when the new inference is equal, the recorded shape is unchanged.  In
the two-block scenario [X, Y] then [X, Z] (Y, Z distinct), the final
shape is [-1, -1] with no size-backing entry. -/
theorem C5_shape_conflict :
    (∀ (s : AState) (lhs : String) (rhs : Expr) (corr : List Int) (s1 : AState)
        (prior : List Int),
      _isarray (registryUpdates lhs rhs s) lhs = true →
      _analyze_rhs_classes rhs (registryUpdates lhs rhs s) = .ok (corr, s1) →
      lookupA s1.array_shape_classes lhs = some prior →
      prior ≠ corr →
      _analyze_assign lhs rhs s = .ok ([], {s1 with
        array_shape_classes :=
          insertA s1.array_shape_classes lhs (List.replicate prior.length (-1)),
        array_size_vars := popA s1.array_size_vars lhs}) ∧
      (∀ out s2, _analyze_assign lhs rhs s = .ok (out, s2) →
        lookupA s2.array_shape_classes lhs = some (List.replicate prior.length (-1)) ∧
        lookupA s2.array_size_vars lhs = none)) ∧
    (∀ (s : AState) (lhs : String) (rhs : Expr) (corr : List Int) (s1 : AState)
        (prior : List Int),
      _isarray (registryUpdates lhs rhs s) lhs = true →
      _analyze_rhs_classes rhs (registryUpdates lhs rhs s) = .ok (corr, s1) →
      lookupA s1.array_shape_classes lhs = some prior →
      prior = corr →
      ∀ out s2, _analyze_assign lhs rhs s = .ok (out, s2) →
        lookupA s2.array_shape_classes lhs = some prior) ∧
    (∀ (s : AState) (v w : String) (X Y Z : Int),
      _isarray s v = true →
      lookupA s.array_shape_classes v = some [X, Y] →
      lookupA s.array_shape_classes w = some [X, Z] →
      Y ≠ Z →
      (_analyze_assign v (Expr.var w) s).map
        (fun r => (r.1, lookupA r.2.array_shape_classes v, lookupA r.2.array_size_vars v)) =
        .ok ([], some [-1, -1], none)) := by
  have hpart1 : ∀ (s : AState) (lhs : String) (rhs : Expr) (corr : List Int) (s1 : AState)
      (prior : List Int),
      _isarray (registryUpdates lhs rhs s) lhs = true →
      _analyze_rhs_classes rhs (registryUpdates lhs rhs s) = .ok (corr, s1) →
      lookupA s1.array_shape_classes lhs = some prior →
      prior ≠ corr →
      _analyze_assign lhs rhs s = .ok ([], {s1 with
        array_shape_classes :=
          insertA s1.array_shape_classes lhs (List.replicate prior.length (-1)),
        array_size_vars := popA s1.array_size_vars lhs}) ∧
      (∀ out s2, _analyze_assign lhs rhs s = .ok (out, s2) →
        lookupA s2.array_shape_classes lhs = some (List.replicate prior.length (-1)) ∧
        lookupA s2.array_size_vars lhs = none) := by
    intro s lhs rhs corr s1 prior hArr hRhs hPrior hNe
    have heq : _analyze_assign lhs rhs s = .ok ([], {s1 with
        array_shape_classes :=
          insertA s1.array_shape_classes lhs (List.replicate prior.length (-1)),
        array_size_vars := popA s1.array_size_vars lhs}) := by
      simp only [_analyze_assign, hArr, if_true, hRhs, hPrior, _get_ndims]
      rw [if_pos hNe]
      simp [hPrior]
    refine ⟨heq, ?_⟩
    intro out s2 h
    rw [heq] at h
    injection h with h
    injection h with h1 h2
    rw [← h2]
    constructor
    · exact lookupA_insertA_self _ _ _
    · exact lookupA_popA_self _ _
  refine ⟨hpart1, ?_, ?_⟩
  · intro s lhs rhs corr s1 prior hArr hRhs hPrior hEq out s2 h
    have heq2 : _analyze_assign lhs rhs s = recordAndMaterialize lhs corr s1 := by
      simp only [_analyze_assign, hArr, if_true, hRhs, hPrior]
      rw [if_neg (by simp [hEq])]
    rw [heq2] at h
    unfold recordAndMaterialize at h
    rw [sizeLoop_shapes lhs corr 0 _ out s2 h]
    show lookupA (insertA s1.array_shape_classes lhs corr) lhs = some prior
    rw [lookupA_insertA_self, hEq]
  · intro s v w X Y Z hv hlv hlw hYZ
    have hrhs : _analyze_rhs_classes (Expr.var w) s = .ok ([X, Z], s) := by
      simp [_analyze_rhs_classes, hlw]
    have hNe : ([X, Y] : List Int) ≠ [X, Z] := by simp [hYZ]
    have H := hpart1 s v (Expr.var w) [X, Z] s [X, Y] hv hrhs hlv hNe
    obtain ⟨hsh, hsv⟩ := H.2 _ _ H.1
    rw [H.1]
    simp only [Except.map]
    rw [hsh, hsv]
    rfl

/-- Closed instance of C5 in `sW5`: re-recording v (previously of shape
[1, 2], with size variables) with the differing shape [1, 3] (copied
from w) downgrades v's shape to [-1, -1], discards its size-backing
entry, and emits nothing. -/
theorem C5_witness :
    (_analyze_assign "v" (Expr.var "w") sW5).map
      (fun r => (r.1, lookupA r.2.array_shape_classes "v", lookupA r.2.array_size_vars "v")) =
      .ok ([], some [-1, -1], none) :=
  C5_shape_conflict.2.2 sW5 "v" "w" 1 2 3 (by rfl) (by rfl) (by rfl) (by decide)

/-- C6 counterexample: a call whose target variable is registered in no
call registry does NOT proceed non-fatally — the `assert call_name is
not NULL` fails, aborting the whole analysis run. -/
theorem C6_counterexample :
    analysisRun [(0, [Inst.assign "t" (Expr.call "f" [])])] (initState [("t", Typ.array 1)]) =
      .error "AssertionError: call_name is NULL" := by
  rfl

/-- C6 amended: a call registered in a call registry whose resolved
name matches no named-function rule returns the single-dimension shape
[-1] non-fatally with the state unchanged, and an expression of an
unsupported operation kind returns the empty shape non-fatally; but a
call whose target is recognized by no registry fails a fatal assertion
that aborts the pass. -/
theorem C6_nonfatal_amended :
    (∀ (s : AState) (f name : String) (args : List String),
      s.map_calls.contains f = false →
      lookupA s.numpy_calls f = some name →
      name ≠ "transpose" → name ≠ "empty" → name ≠ "zeros" → name ≠ "ones" →
      name ≠ "empty_like" → name ≠ "zeros_like" → name ≠ "ones_like" →
      name ≠ "reshape" → name ≠ "dot" → name ∉ UFUNC_MAP_OP →
      _analyze_rhs_classes (Expr.call f args) s = .ok ([-1], s)) ∧
    (∀ (s : AState) (f : String) (args : List String),
      s.map_calls.contains f = false →
      lookupA s.numpy_calls f = none →
      lookupA s.array_attr_calls f = none →
      _analyze_rhs_classes (Expr.call f args) s =
        .error "AssertionError: call_name is NULL") ∧
    (∀ (s : AState) (d : String),
      _analyze_rhs_classes (Expr.otherExpr d) s = .ok ([], s)) := by
  refine ⟨?_, ?_, ?_⟩
  · intro s f name args hmap hnp h1 h2 h3 h4 h5 h6 h7 h8 h9 hUF
    simp only [_analyze_rhs_classes, hmap, Bool.false_eq_true, if_false, hnp]
    simp only [_analyze_np_call]
    rw [if_neg h1, if_neg (by simp [h2, h3, h4]), if_neg (by simp [h5, h6, h7]),
      if_neg h8, if_neg h9, if_neg hUF]
  · intro s f args hmap hnp hattr
    simp only [_analyze_rhs_classes, hmap, Bool.false_eq_true, if_false, hnp, hattr]
  · intro s d
    rfl

/-- Closed instance of C6 (amended) in `sW6`: the registered call q
resolves to the unknown name mystery and yields [-1] non-fatally; the
unregistered call r fails the assertion; an unsupported expression kind
yields the empty shape. -/
theorem C6_witness :
    _analyze_rhs_classes (Expr.call "q" []) sW6 = .ok ([-1], sW6) ∧
    _analyze_rhs_classes (Expr.call "r" []) sW6 =
      .error "AssertionError: call_name is NULL" ∧
    _analyze_rhs_classes (Expr.otherExpr "build_map") sW6 = .ok ([], sW6) := by
  refine ⟨?_, ?_, ?_⟩
  · exact C6_nonfatal_amended.1 sW6 "q" "mystery" [] (by rfl) (by rfl) (by decide)
      (by decide) (by decide) (by decide) (by decide) (by decide) (by decide)
      (by decide) (by decide) (by decide)
  · exact C6_nonfatal_amended.2.1 sW6 "r" [] (by rfl) (by rfl) (by rfl)
  · exact C6_nonfatal_amended.2.2 sW6 "build_map"

/-- C7: a universal-function call with one array operand and one
non-array operand does not broadcast the scalar as a class-0 operand —
the line `eqs.append = [0]` assigns to the list attribute `append` and
raises `AttributeError`, aborting the analysis. -/
theorem C7_scalar_operand_attributeerror :
    _analyze_np_call "add" ["A", "c"] sW7 =
      .error "AttributeError: list object attribute append is read-only" := by
  rfl

/-- C8: an array-creation call whose shape argument is a scalar
integer does not record the scalar as the fresh class's representative
size — the scalar branch of `_get_classes_from_shape` references the
undefined name `args` and raises `NameError`. -/
theorem C8_scalar_shape_arg_nameerror :
    _get_classes_from_shape "n" (initState [("n", Typ.int)]) =
      .error "NameError: name args is not defined" := by
  rfl

/-- C9: class -1 is not protected from merging.  Running the analysis
on the C9 program, after the first four instructions X's recorded shape
is [-1]; the final elementwise operation broadcasts X with A, which
calls the class merge with -1 as an argument and rewrites the recorded
-1 occurrence to the fresh positive class 2. -/
theorem C9_unknown_class_merged :
    (analysisRun [(0, blk9pre)] (initState tm9)).map
      (fun p => lookupA p.2.array_shape_classes "X") = .ok (some [-1]) ∧
    (analysisRun [(0, blk9)] (initState tm9)).map
      (fun p => lookupA p.2.array_shape_classes "X") = .ok (some [2]) := by
  exact ⟨rfl, rfl⟩

/-- C10: analyzing a block deletes and reorders nothing — the original
body is a sublist (in order) of the output body, each instruction's
generated size calls are inserted immediately after it, and
non-assignments as well as assignments to non-array targets generate no
insertions. -/
theorem C10_block_frame :
    (∀ (body : List Inst) (s : AState) (out : List Inst) (s1 : AState),
      _analyze_block body s = .ok (out, s1) → List.Sublist body out) ∧
    (∀ (inst : Inst) (rest : List Inst) (s : AState) (gen : List Inst) (s1 : AState),
      _analyze_inst inst s = .ok (gen, s1) →
      _analyze_block (inst :: rest) s =
        (_analyze_block rest s1).map (fun r => (inst :: (gen ++ r.1), r.2))) ∧
    (∀ (s : AState) (d : String), _analyze_inst (Inst.other d) s = .ok ([], s)) ∧
    (∀ (s : AState) (lhs : String) (rhs : Expr),
      _isarray (registryUpdates lhs rhs s) lhs = false →
      _analyze_assign lhs rhs s = .ok ([], registryUpdates lhs rhs s)) := by
  refine ⟨?_, ?_, ?_, ?_⟩
  · intro body
    induction body with
    | nil =>
      intro s out s1 h
      simp only [_analyze_block] at h
      injection h with h
      injection h with h1 h2
      rw [← h1]
    | cons inst rest ih =>
      intro s out s1 h
      simp only [_analyze_block] at h
      split at h
      next => simp at h
      next g heqg =>
        split at h
        next => simp at h
        next r heqr =>
          simp only [Except.ok.injEq, Prod.mk.injEq] at h
          obtain ⟨h1, h2⟩ := h
          rw [← h1]
          exact List.Sublist.cons₂ inst
            ((ih g.2 r.1 r.2 heqr).trans (List.sublist_append_right g.1 r.1))
  · intro inst rest s gen s1 hi
    simp only [_analyze_block, hi]
    cases hb : _analyze_block rest s1 with
    | error e => simp [Except.map]
    | ok r => simp [Except.map]
  · intro s d
    rfl
  · intro s lhs rhs h
    simp [_analyze_assign, h]

/-- Closed instances of C10: a one-instruction non-assignment block is
passed through unchanged; the cons-step equation, the non-assignment
rule and the non-array-assignment rule at concrete inputs. -/
theorem C10_witness :
    List.Sublist [Inst.other "jump"] [Inst.other "jump"] ∧
    _analyze_block [Inst.other "jump"] (initState []) =
      (_analyze_block [] (initState [])).map
        (fun r => (Inst.other "jump" :: ([] ++ r.1), r.2)) ∧
    _analyze_inst (Inst.other "jump") (initState []) = .ok ([], initState []) ∧
    _analyze_assign "x" (Expr.constInt 0) (initState []) =
      .ok ([], registryUpdates "x" (Expr.constInt 0) (initState [])) := by
  refine ⟨?_, ?_, ?_, ?_⟩
  · exact C10_block_frame.1 [Inst.other "jump"] (initState []) [Inst.other "jump"]
      (initState []) (by rfl)
  · exact C10_block_frame.2.1 (Inst.other "jump") [] (initState []) [] (initState []) (by rfl)
  · exact C10_block_frame.2.2.1 (initState []) "jump"
  · exact C10_block_frame.2.2.2 (initState []) "x" (Expr.constInt 0) (by rfl)

end ArrayAnalysis
